import Mathlib

/-!
Verification of the metrics aggregation and statistical comparison engine
of the E2EE performance-analysis repository.

The embedding follows the two Python sources:

* `overall_comparison.py` — `aggregate_metrics` merges metric samples across
  session JSON files; `compute_stats` computes mean / p50 / p95 / p99 /
  min / max / count over a flat value array (via `numpy`'s default
  "linear"-interpolation quantile).
* `analyze_performance.py` — `extract_metrics_timeseries` rebuilds a
  synthetic elapsed-time axis, and `compare_two_tests` prints the
  numerical baseline-vs-E2EE comparison with its guarded percent change.

Real numbers in the Python code are modelled as rationals (`ℚ`); the
floating NaN sentinel produced by `np.nan` is modelled explicitly by the
`PyFloat` type, so that "undefined" versus "numeric" results stay
distinguishable.  Dictionaries read from JSON are modelled as association
lists with string keys.
-/

namespace E2EE

/-- One metric observation, i.e. one `{"timestamp": ..., "value": ...}`
point of a session's metric series. -/
structure MetricPoint where
  timestamp : Int
  value : ℚ
deriving DecidableEq

/-- A Python float as produced by the statistics code: either an actual
number or the floating NaN that `compute_stats` uses for empty input. -/
inductive PyFloat where
  | nan : PyFloat
  | num : ℚ → PyFloat
deriving DecidableEq

/-- Comparison of `PyFloat` values, mirroring IEEE semantics on the NaN
side: a comparison involving NaN never holds. -/
def PyFloat.Le : PyFloat → PyFloat → Prop
  | .num a, .num b => a ≤ b
  | _, _ => False

instance : ∀ a b : PyFloat, Decidable (PyFloat.Le a b)
  | .num a, .num b => inferInstanceAs (Decidable (a ≤ b))
  | .nan, .nan => inferInstanceAs (Decidable False)
  | .nan, .num _ => inferInstanceAs (Decidable False)
  | .num _, .nan => inferInstanceAs (Decidable False)

/-- The record returned by `compute_stats`. -/
structure Stats where
  mean : PyFloat
  p50 : PyFloat
  p95 : PyFloat
  p99 : PyFloat
  min : PyFloat
  max : PyFloat
  count : ℕ
deriving DecidableEq

/-- A sorted copy of the input values (the sort `np.quantile` performs
internally; the input array itself is never mutated). -/
def pySorted (l : List ℚ) : List ℚ := l.insertionSort (· ≤ ·)

/-- Linear interpolation of a (sorted) list at a fractional index `h`:
the value at `⌊h⌋` plus the fractional part times the gap to the next
entry.  Out-of-range reads return the lower value, so at the top index
the result is exactly the last element. -/
def interp (s : List ℚ) (h : ℚ) : ℚ :=
  let i : ℕ := (⌊h⌋).toNat
  let lo : ℚ := s.getD i 0
  let hi : ℚ := s.getD (i + 1) lo
  lo + (h - (i : ℚ)) * (hi - lo)

/-- `np.quantile(arr, q)` with numpy's default "linear" interpolation:
the virtual index is `q * (n - 1)` into a sorted copy of the data. -/
def quantile (l : List ℚ) (q : ℚ) : ℚ :=
  interp (pySorted l) (q * ((l.length : ℚ) - 1))

/-- `arr.min()`: the least element (head of a sorted copy). -/
def listMin (l : List ℚ) : ℚ := (pySorted l).headD 0

/-- `arr.max()`: the greatest element (last of a sorted copy). -/
def listMax (l : List ℚ) : ℚ := (pySorted l).getLastD 0

/-- `compute_stats` from `overall_comparison.py`: mean, p50, p95, p99,
min, max and count of a 1-D array; every statistic field is NaN and the
count is `0` when the array is empty. -/
def compute_stats (arr : List ℚ) : Stats :=
  if arr.length = 0 then
    { mean := .nan, p50 := .nan, p95 := .nan, p99 := .nan,
      min := .nan, max := .nan, count := 0 }
  else
    { mean := .num (arr.sum / (arr.length : ℚ))
      p50 := .num (quantile arr (1 / 2))
      p95 := .num (quantile arr (95 / 100))
      p99 := .num (quantile arr (99 / 100))
      min := .num (listMin arr)
      max := .num (listMax arr)
      count := arr.length }

/-- The spec's own wording of the percentile rule, kept as a separate
definition to compare with the code's `quantile`: "for a sorted copy of
`values` of length `n`, the `q`-quantile is found at virtual index
`q × (n − 1)`, interpolating linearly between the two adjacent sorted
values when the index is fractional". -/
def specLinearQuantile (values : List ℚ) (q : ℚ) : ℚ :=
  let sorted := values.insertionSort (· ≤ ·)
  let n := values.length
  let idx : ℚ := q * ((n : ℚ) - 1)
  let k : ℕ := (⌊idx⌋).toNat
  if k + 1 < n then
    sorted.getD k 0 + (idx - (k : ℚ)) * (sorted.getD (k + 1) 0 - sorted.getD k 0)
  else
    sorted.getD k 0

/-- The closed set of recognized metric kinds, `METRIC_KEYS` in
`overall_comparison.py`. -/
def METRIC_KEYS : List String := ["latency", "jitter", "packetLoss", "bitrate", "frameRate"]

/-- The relevant content of one session JSON file as read by
`aggregate_metrics`: the `"metrics"` object (an association from metric
names to sample series) and the optional `"samples"` / `"duration"`
entries of the `"summary"` object. -/
structure SessionData where
  metrics : List (String × List MetricPoint)
  summarySamples : Option Int
  summaryDuration : Option Int
deriving DecidableEq

/-- The values one session contributes for one metric key:
`[point["value"] for point in m[key]]` when the key is present in the
session's metrics object, nothing otherwise (`if key not in m: continue`). -/
def sessionContrib (d : SessionData) (key : String) : List ℚ :=
  match d.metrics.lookup key with
  | none => []
  | some pts => pts.map MetricPoint.value

/-- One session's contribution to `total_samples`:
`summary.get("samples", len(m.get("latency", [])))`. -/
def sessionSamples (d : SessionData) : Int :=
  match d.summarySamples with
  | some s => s
  | none => (((d.metrics.lookup "latency").getD []).length : Int)

/-- One session's contribution to `total_duration_ms`:
`summary.get("duration", 0)`. -/
def sessionDuration (d : SessionData) : Int :=
  d.summaryDuration.getD 0

/-- The triple returned by `aggregate_metrics`. -/
structure AggResult where
  metrics : List (String × List ℚ)
  total_samples : Int
  total_duration_ms : Int
deriving DecidableEq

/-- The body of the `for path in files` loop of `aggregate_metrics`:
extend each of the five metric lists with the session's samples for that
key and add the session's scalar contributions. -/
def aggStep (st : AggResult) (d : SessionData) : AggResult :=
  { metrics := st.metrics.map fun e => (e.1, e.2 ++ sessionContrib d e.1)
    total_samples := st.total_samples + sessionSamples d
    total_duration_ms := st.total_duration_ms + sessionDuration d }

/-- `aggregate_metrics` from `overall_comparison.py`: starting from
`{k: [] for k in METRIC_KEYS}` and zero totals, fold the per-file loop
body over the input files. -/
def aggregate_metrics (files : List SessionData) : AggResult :=
  files.foldl aggStep
    { metrics := METRIC_KEYS.map fun k => (k, [])
      total_samples := 0
      total_duration_ms := 0 }

/-- The flat concatenation, in file order, of every session's values for
one metric key (the closed form of what the loop accumulates per key). -/
def metricValues (files : List SessionData) (key : String) : List ℚ :=
  files.flatMap fun d => sessionContrib d key

/-- Modelled from the spec: the claimed total where, for a session whose
summary value is absent, the fallback contribution for *both* totals is
the length of that session's latency series. -/
def claimedDurationTotal (files : List SessionData) : Int :=
  (files.map fun d =>
    d.summaryDuration.getD (((d.metrics.lookup "latency").getD []).length : Int)).sum

/-- A test summary as read by `compare_two_tests`: per metric name, an
association from statistic name (`"mean"`, `"p95"`, ...) to its value. -/
abbrev Summary := List (String × List (String × ℚ))

/-- `float(summary.get(metric, {}).get('mean', 0))`: the mean recorded in
a summary for a metric, defaulting to `0` at every missing level. -/
def summaryMean (summary : Summary) (metric : String) : ℚ :=
  (((summary.lookup metric).getD []).lookup "mean").getD 0

/-- `diff = e_mean - b_mean` from the numerical-comparison loop of
`compare_two_tests`. -/
def mean_delta (baseline_summary e2ee_summary : Summary) (metric : String) : ℚ :=
  summaryMean e2ee_summary metric - summaryMean baseline_summary metric

/-- `pct = (diff / b_mean * 100) if b_mean > 0 else 0` from the
numerical-comparison loop of `compare_two_tests`. -/
def pct_change (baseline_summary e2ee_summary : Summary) (metric : String) : ℚ :=
  let b_mean := summaryMean baseline_summary metric
  let e_mean := summaryMean e2ee_summary metric
  if b_mean > 0 then (e_mean - b_mean) / b_mean * 100 else 0

/-- The relevant content of the single-session JSON file seen by
`PerformanceAnalyzer`: the metrics object and the optional top-level
`"interval"` entry. -/
structure AnalyzerData where
  metrics : List (String × List MetricPoint)
  interval : Option ℚ
deriving DecidableEq

/-- `df['elapsed_sec'] = df.index * (self.data.get('interval', 1000) / 1000)`:
the synthetic elapsed-time axis for one metric series, indexed `0..n-1`. -/
def elapsed_sec (d : AnalyzerData) (pts : List MetricPoint) : List ℚ :=
  (List.range pts.length).map fun i : ℕ => (i : ℚ) * (d.interval.getD 1000 / 1000)

/-- The elapsed-time column `extract_metrics_timeseries` builds for one
metric name: present exactly when the name is one of the five recognized
kinds, occurs in the metrics object, and its series is non-empty. -/
def extract_elapsed (d : AnalyzerData) (metric : String) : Option (List ℚ) :=
  if metric ∈ METRIC_KEYS then
    match d.metrics.lookup metric with
    | some pts => if 0 < pts.length then some (elapsed_sec d pts) else none
    | none => none
  else
    none

/-! ## Basic facts about the sorted copy and list access -/

theorem pySorted_sorted (l : List ℚ) : (pySorted l).Sorted (· ≤ ·) :=
  List.sorted_insertionSort _ l

theorem pySorted_perm (l : List ℚ) : (pySorted l).Perm l :=
  List.perm_insertionSort _ l

theorem pySorted_length (l : List ℚ) : (pySorted l).length = l.length :=
  (pySorted_perm l).length_eq

theorem pySorted_eq_of_perm {l₁ l₂ : List ℚ} (h : l₁.Perm l₂) :
    pySorted l₁ = pySorted l₂ :=
  List.eq_of_perm_of_sorted ((pySorted_perm l₁).trans (h.trans (pySorted_perm l₂).symm))
    (pySorted_sorted l₁) (pySorted_sorted l₂)

theorem getD_eq_get_of_lt (l : List ℚ) (i : ℕ) (d : ℚ) (h : i < l.length) :
    l.getD i d = l.get ⟨i, h⟩ := by
  simp [List.getD_eq_getElem?_getD, List.getElem?_eq_getElem h]

theorem getD_eq_default (l : List ℚ) (i : ℕ) (d : ℚ) (h : l.length ≤ i) :
    l.getD i d = d := by
  simp [List.getD_eq_getElem?_getD, List.getElem?_eq_none h]

theorem getD_default_irrel (l : List ℚ) (i : ℕ) (d : ℚ) (h : i < l.length) :
    l.getD i d = l.getD i 0 := by
  rw [getD_eq_get_of_lt l i d h, getD_eq_get_of_lt l i 0 h]

theorem sorted_getD_mono {s : List ℚ} (hs : s.Sorted (· ≤ ·)) {i j : ℕ} (hij : i ≤ j)
    (hj : j < s.length) : s.getD i 0 ≤ s.getD j 0 := by
  have hi : i < s.length := lt_of_le_of_lt hij hj
  rw [getD_eq_get_of_lt s i 0 hi, getD_eq_get_of_lt s j 0 hj]
  exact hs.rel_get_of_le hij

theorem headD_eq_getD (l : List ℚ) : l.headD 0 = l.getD 0 0 := by
  cases l <;> rfl

theorem getLastD_eq_getD (l : List ℚ) : l.getLastD 0 = l.getD (l.length - 1) 0 := by
  induction l with
  | nil => rfl
  | cons a t ih =>
    cases t with
    | nil => rfl
    | cons b u =>
      have : (a :: b :: u).getLastD 0 = (b :: u).getLastD 0 := by
        simp [List.getLastD_eq_getLast?, List.getLast?]
      rw [this, ih]
      simp [List.getD]

/-! ## The minimum and maximum -/

theorem listMin_le {l : List ℚ} {x : ℚ} (hx : x ∈ l) : listMin l ≤ x := by
  have hx' : x ∈ pySorted l := (pySorted_perm l).mem_iff.2 hx
  unfold listMin
  cases hp : pySorted l with
  | nil => rw [hp] at hx'; cases hx'
  | cons a t =>
    rw [hp] at hx'
    have hs : (a :: t).Sorted (· ≤ ·) := by rw [← hp]; exact pySorted_sorted l
    rcases List.mem_cons.1 hx' with rfl | hxt
    · exact le_refl x
    · exact (List.sorted_cons.1 hs).1 x hxt

theorem pySorted_ne_nil {l : List ℚ} (hl : l ≠ []) : pySorted l ≠ [] := by
  intro h
  apply hl
  have hp := pySorted_perm l
  rw [h] at hp
  exact hp.symm.eq_nil

theorem listMin_mem {l : List ℚ} (hl : l ≠ []) : listMin l ∈ l := by
  refine (pySorted_perm l).mem_iff.1 ?_
  unfold listMin
  cases hp : pySorted l with
  | nil => exact absurd hp (pySorted_ne_nil hl)
  | cons a t => simp

theorem sorted_le_getLastD : ∀ {s : List ℚ}, s.Sorted (· ≤ ·) → ∀ x ∈ s, x ≤ s.getLastD 0 := by
  intro s
  induction s with
  | nil => intro _ x hx; cases hx
  | cons a t ih =>
    intro hs x hx
    have hcons := List.sorted_cons.1 hs
    cases t with
    | nil =>
      rcases List.mem_cons.1 hx with rfl | h
      · simp [List.getLastD]
      · cases h
    | cons b u =>
      have hstep : (a :: b :: u).getLastD 0 = (b :: u).getLastD 0 := by
        simp [List.getLastD_eq_getLast?, List.getLast?]
      rw [hstep]
      rcases List.mem_cons.1 hx with rfl | hxt
      · calc x ≤ b := hcons.1 b (by simp)
          _ ≤ (b :: u).getLastD 0 := ih hcons.2 b (by simp)
      · exact ih hcons.2 x hxt

theorem le_listMax {l : List ℚ} {x : ℚ} (hx : x ∈ l) : x ≤ listMax l :=
  sorted_le_getLastD (pySorted_sorted l) x ((pySorted_perm l).mem_iff.2 hx)

theorem listMax_mem {l : List ℚ} (hl : l ≠ []) : listMax l ∈ l := by
  have hne : pySorted l ≠ [] := pySorted_ne_nil hl
  refine (pySorted_perm l).mem_iff.1 ?_
  unfold listMax
  rw [List.getLastD_eq_getLast?, List.getLast?_eq_getLast _ hne]
  simp [List.getLast_mem]

/-! ## The mean -/

theorem length_pos_rat {l : List ℚ} (hl : l ≠ []) : 0 < ((l.length : ℚ)) := by
  have : 0 < l.length := List.length_pos.2 hl
  exact_mod_cast this

theorem min_le_mean {l : List ℚ} (hl : l ≠ []) : listMin l ≤ l.sum / (l.length : ℚ) := by
  have hsum : l.length • listMin l ≤ l.sum :=
    List.card_nsmul_le_sum l (listMin l) fun x hx => listMin_le hx
  rw [nsmul_eq_mul] at hsum
  rw [le_div_iff₀ (length_pos_rat hl)]
  linarith

theorem mean_le_max {l : List ℚ} (hl : l ≠ []) : l.sum / (l.length : ℚ) ≤ listMax l := by
  have hsum : l.sum ≤ l.length • listMax l :=
    List.sum_le_card_nsmul l (listMax l) fun x hx => le_listMax hx
  rw [nsmul_eq_mul] at hsum
  rw [div_le_iff₀ (length_pos_rat hl)]
  linarith

/-! ## `compute_stats` on non-empty input -/

theorem compute_stats_of_ne_nil {l : List ℚ} (hl : l ≠ []) :
    compute_stats l =
      { mean := .num (l.sum / (l.length : ℚ))
        p50 := .num (quantile l (1 / 2))
        p95 := .num (quantile l (95 / 100))
        p99 := .num (quantile l (99 / 100))
        min := .num (listMin l)
        max := .num (listMax l)
        count := l.length } := by
  rw [compute_stats, if_neg]
  simpa [List.length_eq_zero] using hl

/-! ## Linear interpolation at a fractional index -/

theorem interp_eq (s : List ℚ) (h : ℚ) :
    interp s h =
      s.getD (⌊h⌋).toNat 0 +
        (h - (((⌊h⌋).toNat : ℕ) : ℚ)) *
          (s.getD ((⌊h⌋).toNat + 1) (s.getD (⌊h⌋).toNat 0) - s.getD (⌊h⌋).toNat 0) := rfl

theorem floor_toNat_cast {h : ℚ} (h0 : 0 ≤ h) : (((⌊h⌋).toNat : ℕ) : ℚ) = (⌊h⌋ : ℚ) := by
  exact_mod_cast Int.toNat_of_nonneg (Int.floor_nonneg.2 h0)

theorem frac_nonneg {h : ℚ} (h0 : 0 ≤ h) : 0 ≤ h - (((⌊h⌋).toNat : ℕ) : ℚ) := by
  rw [floor_toNat_cast h0]
  have := Int.floor_le h
  linarith

theorem frac_lt_one {h : ℚ} (h0 : 0 ≤ h) : h - (((⌊h⌋).toNat : ℕ) : ℚ) < 1 := by
  rw [floor_toNat_cast h0]
  have := Int.lt_floor_add_one h
  linarith

theorem floor_toNat_lt_length {s : List ℚ} {h : ℚ} (h0 : 0 ≤ h)
    (h1 : h ≤ (s.length : ℚ) - 1) : (⌊h⌋).toNat < s.length := by
  have hq : (((⌊h⌋).toNat : ℕ) : ℚ) ≤ (s.length : ℚ) - 1 := by
    rw [floor_toNat_cast h0]
    calc ((⌊h⌋ : ℤ) : ℚ) ≤ h := Int.floor_le h
      _ ≤ (s.length : ℚ) - 1 := h1
  have hcast : (((⌊h⌋).toNat : ℕ) : ℚ) < ((s.length : ℕ) : ℚ) := by linarith
  exact_mod_cast hcast

theorem lo_le_hi {s : List ℚ} (hs : s.Sorted (· ≤ ·)) (i : ℕ) :
    s.getD i 0 ≤ s.getD (i + 1) (s.getD i 0) := by
  by_cases hc : i + 1 < s.length
  · rw [getD_default_irrel s (i + 1) _ hc]
    exact sorted_getD_mono hs (Nat.le_succ i) hc
  · rw [getD_eq_default s (i + 1) _ (not_lt.1 hc)]

theorem interp_between {s : List ℚ} (hs : s.Sorted (· ≤ ·)) {h : ℚ} (h0 : 0 ≤ h) :
    s.getD (⌊h⌋).toNat 0 ≤ interp s h ∧
    interp s h ≤ s.getD ((⌊h⌋).toNat + 1) (s.getD (⌊h⌋).toNat 0) := by
  have hg0 := frac_nonneg h0
  have hg1 := frac_lt_one h0
  have hlohi := lo_le_hi hs (⌊h⌋).toNat
  rw [interp_eq]
  constructor
  · have hp : 0 ≤ (h - (((⌊h⌋).toNat : ℕ) : ℚ)) *
        (s.getD ((⌊h⌋).toNat + 1) (s.getD (⌊h⌋).toNat 0) - s.getD (⌊h⌋).toNat 0) :=
      mul_nonneg hg0 (by linarith)
    linarith
  · have hp : 0 ≤ (1 - (h - (((⌊h⌋).toNat : ℕ) : ℚ))) *
        (s.getD ((⌊h⌋).toNat + 1) (s.getD (⌊h⌋).toNat 0) - s.getD (⌊h⌋).toNat 0) :=
      mul_nonneg (by linarith) (by linarith)
    nlinarith

theorem interp_mono {s : List ℚ} (hs : s.Sorted (· ≤ ·)) {h₁ h₂ : ℚ} (h0 : 0 ≤ h₁)
    (h12 : h₁ ≤ h₂) (h2 : h₂ ≤ (s.length : ℚ) - 1) :
    interp s h₁ ≤ interp s h₂ := by
  have h0' : 0 ≤ h₂ := le_trans h0 h12
  have hi12 : (⌊h₁⌋).toNat ≤ (⌊h₂⌋).toNat :=
    Int.toNat_le_toNat (Int.floor_le_floor h12)
  rcases lt_or_eq_of_le hi12 with hlt | heq
  · have hb₁ := (interp_between hs h0).2
    have hb₂ := (interp_between hs h0').1
    have hin₂ := floor_toNat_lt_length h0' h2
    have hc : (⌊h₁⌋).toNat + 1 ≤ (⌊h₂⌋).toNat := hlt
    have hrange : (⌊h₁⌋).toNat + 1 < s.length := lt_of_le_of_lt hc hin₂
    calc interp s h₁ ≤ s.getD ((⌊h₁⌋).toNat + 1) (s.getD (⌊h₁⌋).toNat 0) := hb₁
      _ = s.getD ((⌊h₁⌋).toNat + 1) 0 := getD_default_irrel _ _ _ hrange
      _ ≤ s.getD ((⌊h₂⌋).toNat) 0 := sorted_getD_mono hs hc hin₂
      _ ≤ interp s h₂ := hb₂
  · rw [interp_eq, interp_eq, ← heq]
    have hg : h₁ - (((⌊h₁⌋).toNat : ℕ) : ℚ) ≤ h₂ - (((⌊h₁⌋).toNat : ℕ) : ℚ) := by linarith
    have hlohi := lo_le_hi hs (⌊h₁⌋).toNat
    have hp : 0 ≤ (h₂ - h₁) *
        (s.getD ((⌊h₁⌋).toNat + 1) (s.getD (⌊h₁⌋).toNat 0) - s.getD (⌊h₁⌋).toNat 0) :=
      mul_nonneg (by linarith) (by linarith)
    nlinarith

/-! ## Quantiles of a non-empty list -/

theorem one_le_length_rat {l : List ℚ} (hl : l ≠ []) : (1 : ℚ) ≤ (l.length : ℚ) := by
  have : 1 ≤ l.length := Nat.succ_le_of_lt (List.length_pos.2 hl)
  exact_mod_cast this

theorem idx_nonneg {l : List ℚ} (hl : l ≠ []) {q : ℚ} (hq : 0 ≤ q) :
    0 ≤ q * ((l.length : ℚ) - 1) := by
  have := one_le_length_rat hl
  exact mul_nonneg hq (by linarith)

theorem idx_le {l : List ℚ} (hl : l ≠ []) {q : ℚ} (hq : q ≤ 1) :
    q * ((l.length : ℚ) - 1) ≤ ((pySorted l).length : ℚ) - 1 := by
  rw [pySorted_length]
  have h1 := one_le_length_rat hl
  nlinarith

theorem quantile_mono {l : List ℚ} (hl : l ≠ []) {q₁ q₂ : ℚ} (h0 : 0 ≤ q₁) (h12 : q₁ ≤ q₂)
    (h1 : q₂ ≤ 1) : quantile l q₁ ≤ quantile l q₂ := by
  have hn1 : (0 : ℚ) ≤ (l.length : ℚ) - 1 := by
    have := one_le_length_rat hl
    linarith
  exact interp_mono (pySorted_sorted l) (mul_nonneg h0 hn1)
    (mul_le_mul_of_nonneg_right h12 hn1) (idx_le hl h1)

theorem min_le_quantile {l : List ℚ} (hl : l ≠ []) {q : ℚ} (h0 : 0 ≤ q) (h1 : q ≤ 1) :
    listMin l ≤ quantile l q := by
  have hidx0 := idx_nonneg hl h0
  have hin := floor_toNat_lt_length hidx0 (idx_le hl h1)
  calc listMin l = (pySorted l).getD 0 0 := by rw [listMin, headD_eq_getD]
    _ ≤ (pySorted l).getD (⌊q * ((l.length : ℚ) - 1)⌋).toNat 0 :=
      sorted_getD_mono (pySorted_sorted l) (Nat.zero_le _) hin
    _ ≤ interp (pySorted l) (q * ((l.length : ℚ) - 1)) :=
      (interp_between (pySorted_sorted l) hidx0).1

theorem quantile_le_max {l : List ℚ} (hl : l ≠ []) {q : ℚ} (h0 : 0 ≤ q) (h1 : q ≤ 1) :
    quantile l q ≤ listMax l := by
  have hidx0 := idx_nonneg hl h0
  have hin := floor_toNat_lt_length hidx0 (idx_le hl h1)
  have hlen : 0 < (pySorted l).length := List.length_pos.2 (pySorted_ne_nil hl)
  have hup := (interp_between (pySorted_sorted l) hidx0).2
  have hmax : listMax l = (pySorted l).getD ((pySorted l).length - 1) 0 := by
    rw [listMax, getLastD_eq_getD]
  by_cases hc : (⌊q * ((l.length : ℚ) - 1)⌋).toNat + 1 < (pySorted l).length
  · calc quantile l q
        ≤ (pySorted l).getD ((⌊q * ((l.length : ℚ) - 1)⌋).toNat + 1)
            ((pySorted l).getD (⌊q * ((l.length : ℚ) - 1)⌋).toNat 0) := hup
      _ = (pySorted l).getD ((⌊q * ((l.length : ℚ) - 1)⌋).toNat + 1) 0 :=
        getD_default_irrel _ _ _ hc
      _ ≤ (pySorted l).getD ((pySorted l).length - 1) 0 :=
        sorted_getD_mono (pySorted_sorted l) (by omega) (by omega)
      _ = listMax l := hmax.symm
  · calc quantile l q
        ≤ (pySorted l).getD ((⌊q * ((l.length : ℚ) - 1)⌋).toNat + 1)
            ((pySorted l).getD (⌊q * ((l.length : ℚ) - 1)⌋).toNat 0) := hup
      _ = (pySorted l).getD (⌊q * ((l.length : ℚ) - 1)⌋).toNat 0 :=
        getD_eq_default _ _ _ (not_lt.1 hc)
      _ ≤ (pySorted l).getD ((pySorted l).length - 1) 0 :=
        sorted_getD_mono (pySorted_sorted l) (by omega) (by omega)
      _ = listMax l := hmax.symm

/-- The code's `quantile` (numpy "linear" method) coincides with the spec's
wording of the linear-interpolation order statistic, for every input. -/
theorem quantile_eq_spec (l : List ℚ) (q : ℚ) : quantile l q = specLinearQuantile l q := by
  have hps : l.insertionSort (· ≤ ·) = pySorted l := rfl
  simp only [quantile, specLinearQuantile, interp, hps]
  set idx : ℚ := q * ((l.length : ℚ) - 1) with hidx
  set i : ℕ := (⌊idx⌋).toNat with hidef
  by_cases hc : i + 1 < l.length
  · rw [if_pos hc, getD_default_irrel (pySorted l) (i + 1) ((pySorted l).getD i 0)
      (by rw [pySorted_length]; exact hc)]
  · rw [if_neg hc, getD_eq_default (pySorted l) (i + 1) ((pySorted l).getD i 0)
      (by rw [pySorted_length]; exact not_lt.1 hc)]
    ring

/-! ## Permutation invariance of the statistics -/

theorem quantile_congr_perm {l₁ l₂ : List ℚ} (h : l₁.Perm l₂) (q : ℚ) :
    quantile l₁ q = quantile l₂ q := by
  unfold quantile
  rw [pySorted_eq_of_perm h, h.length_eq]

theorem listMin_congr_perm {l₁ l₂ : List ℚ} (h : l₁.Perm l₂) : listMin l₁ = listMin l₂ := by
  unfold listMin
  rw [pySorted_eq_of_perm h]

theorem listMax_congr_perm {l₁ l₂ : List ℚ} (h : l₁.Perm l₂) : listMax l₁ = listMax l₂ := by
  unfold listMax
  rw [pySorted_eq_of_perm h]

theorem compute_stats_congr_perm {l₁ l₂ : List ℚ} (h : l₁.Perm l₂) :
    compute_stats l₁ = compute_stats l₂ := by
  by_cases h1 : l₁ = []
  · subst h1
    rw [h.symm.eq_nil]
  · have h2 : l₂ ≠ [] := fun he => h1 ((he ▸ h).eq_nil)
    rw [compute_stats_of_ne_nil h1, compute_stats_of_ne_nil h2, h.length_eq, h.sum_eq,
      quantile_congr_perm h, quantile_congr_perm h, quantile_congr_perm h,
      listMin_congr_perm h, listMax_congr_perm h]

/-! ## Characterization of `aggregate_metrics` -/

theorem metricValues_cons (d : SessionData) (rest : List SessionData) (k : String) :
    metricValues (d :: rest) k = sessionContrib d k ++ metricValues rest k := by
  simp [metricValues]

theorem metricValues_append (a b : List SessionData) (k : String) :
    metricValues (a ++ b) k = metricValues a k ++ metricValues b k := by
  simp [metricValues]

theorem foldl_aggStep_eq (files : List SessionData) (st : AggResult) :
    files.foldl aggStep st =
      { metrics := st.metrics.map fun e => (e.1, e.2 ++ metricValues files e.1)
        total_samples := st.total_samples + (files.map sessionSamples).sum
        total_duration_ms := st.total_duration_ms + (files.map sessionDuration).sum } := by
  induction files generalizing st with
  | nil =>
    simp [metricValues]
  | cons d rest ih =>
    rw [List.foldl_cons, ih]
    simp only [aggStep, List.map_map, List.map_cons, List.sum_cons, metricValues_cons]
    congr 1
    · apply List.map_congr_left
      intro e _
      simp [Function.comp, List.append_assoc]
    · ring
    · ring

theorem aggregate_metrics_metrics (files : List SessionData) :
    (aggregate_metrics files).metrics = METRIC_KEYS.map fun k => (k, metricValues files k) := by
  rw [aggregate_metrics, foldl_aggStep_eq]
  simp [List.map_map, Function.comp]

theorem aggregate_metrics_samples (files : List SessionData) :
    (aggregate_metrics files).total_samples = (files.map sessionSamples).sum := by
  rw [aggregate_metrics, foldl_aggStep_eq]
  simp

theorem aggregate_metrics_duration (files : List SessionData) :
    (aggregate_metrics files).total_duration_ms = (files.map sessionDuration).sum := by
  rw [aggregate_metrics, foldl_aggStep_eq]
  simp

theorem lookup_map_keys (L : List String) (f : String → List ℚ) (k : String) (hk : k ∈ L) :
    (L.map fun x => (x, f x)).lookup k = some (f k) := by
  induction L with
  | nil => cases hk
  | cons a t ih =>
    rcases List.mem_cons.1 hk with rfl | hkt
    · simp [List.lookup]
    · by_cases hak : k = a
      · subst hak
        simp [List.lookup]
      · have hb : (k == a) = false := beq_eq_false_iff_ne.2 hak
        simp [List.lookup, hb, ih hkt]

theorem lookup_map_keys_eq {L : List String} {f : String → List ℚ} {k : String} {v : List ℚ}
    (h : (L.map fun x => (x, f x)).lookup k = some v) : v = f k := by
  induction L with
  | nil => simp [List.lookup] at h
  | cons a t ih =>
    by_cases hak : k = a
    · subst hak
      simp [List.lookup] at h
      exact h.symm
    · have hb : (k == a) = false := beq_eq_false_iff_ne.2 hak
      simp [List.lookup, hb] at h
      exact ih h

theorem metricValues_eq_nil {files : List SessionData} {k : String}
    (h : ∀ d ∈ files, d.metrics.lookup k = none) : metricValues files k = [] := by
  induction files with
  | nil => rfl
  | cons d rest ih =>
    rw [metricValues_cons]
    have h1 : sessionContrib d k = [] := by
      unfold sessionContrib
      rw [h d (by simp)]
    rw [h1, List.nil_append]
    exact ih fun d' hd' => h d' (by simp [hd'])

theorem elapsed_sec_getD (d : AnalyzerData) (pts : List MetricPoint) (i : ℕ)
    (hi : i < pts.length) :
    (elapsed_sec d pts).getD i 0 = (i : ℚ) * (d.interval.getD 1000 / 1000) := by
  unfold elapsed_sec
  have hlen : i < ((List.range pts.length).map
      fun j : ℕ => (j : ℚ) * (d.interval.getD 1000 / 1000)).length := by
    rw [List.length_map, List.length_range]
    exact hi
  rw [getD_eq_get_of_lt _ _ _ hlen]
  simp only [List.get_eq_getElem, List.getElem_map, List.getElem_range]

/-! ## Claims -/

/-- C1, counterexample: with a baseline summary whose latency mean is exactly
zero and a treatment mean of 5, the numerical comparison of
`compare_two_tests` reports a percent change of `0` — it is not left
undefined, contradicting the claim that it is "never reported as 0%". -/
theorem claim_C1_counterexample :
    pct_change [("latency", [("mean", 0)])] [("latency", [("mean", 5)])] "latency" = 0 := rfl

/-- C1 (amended): if the baseline mean is undefined (read back as `0`) or not
strictly positive, the reported percent change is `0`, not an undefined
value; the division `delta / baseline.mean × 100` is performed only when the
baseline mean is strictly positive, so no division by zero ever occurs. -/
theorem claim_C1 (baseline_summary e2ee_summary : Summary) (metric : String) :
    (summaryMean baseline_summary metric ≤ 0 →
      pct_change baseline_summary e2ee_summary metric = 0) ∧
    (0 < summaryMean baseline_summary metric →
      pct_change baseline_summary e2ee_summary metric =
        (summaryMean e2ee_summary metric - summaryMean baseline_summary metric) /
          summaryMean baseline_summary metric * 100) := by
  constructor
  · intro hb
    simp only [pct_change]
    rw [if_neg (not_lt.2 hb)]
  · intro hb
    simp only [pct_change]
    rw [if_pos hb]

/-- C2, counterexample: on the empty collection `compute_stats` uses the
floating NaN value as its sentinel, contradicting the claim that the
sentinel is "a proper absent/optional value, never … a NaN". -/
theorem claim_C2_counterexample :
    (compute_stats []).mean = PyFloat.nan ∧ (compute_stats []).count = 0 :=
  ⟨rfl, rfl⟩

/-- C2 (amended): for the empty value collection `compute_stats` returns
`count = 0` and every statistic field equal to the floating NaN sentinel,
without raising an error; the sentinel is NaN, not an optional/absent
value. -/
theorem claim_C2 :
    compute_stats ([] : List ℚ) =
      { mean := .nan, p50 := .nan, p95 := .nan, p99 := .nan,
        min := .nan, max := .nan, count := 0 } := rfl

/-- C3, counterexample: a single session with no summary and a latency
series of length 2 contributes `0` to `total_duration_ms`, not `2`; the
duration fallback is `0`, not the length of the latency series as the
claim states. -/
theorem claim_C3_counterexample :
    (aggregate_metrics
        [⟨[("latency", [⟨0, 10⟩, ⟨1000, 20⟩])], none, none⟩]).total_duration_ms ≠
      claimedDurationTotal [⟨[("latency", [⟨0, 10⟩, ⟨1000, 20⟩])], none, none⟩] := by
  decide

/-- C3 (amended): the aggregated session totals are sums across sessions:
`total_samples` sums each session's `summary.samples`, falling back to the
length of that session's latency series when absent, and
`total_duration_ms` sums each session's `summary.duration`, falling back
to `0` (not the latency length) when absent. -/
theorem claim_C3 (files : List SessionData) :
    (aggregate_metrics files).total_samples = (files.map sessionSamples).sum ∧
    (aggregate_metrics files).total_duration_ms = (files.map sessionDuration).sum :=
  ⟨aggregate_metrics_samples files, aggregate_metrics_duration files⟩

/-- C4: for every non-empty value collection, `compute_stats` returns
`count` equal to the length, `mean` equal to the arithmetic mean, `min`
and `max` equal to the extrema, and `p50`, `p95`, `p99` equal to the
linear-interpolation order statistics at virtual index `q × (n − 1)` with
`q = 0.50, 0.95, 0.99`. -/
theorem claim_C4 (l : List ℚ) (hl : l ≠ []) :
    (compute_stats l).count = l.length ∧
    (compute_stats l).mean = PyFloat.num (l.sum / (l.length : ℚ)) ∧
    (∃ m, (compute_stats l).min = PyFloat.num m ∧ m ∈ l ∧ ∀ x ∈ l, m ≤ x) ∧
    (∃ M, (compute_stats l).max = PyFloat.num M ∧ M ∈ l ∧ ∀ x ∈ l, x ≤ M) ∧
    (compute_stats l).p50 = PyFloat.num (specLinearQuantile l (50 / 100)) ∧
    (compute_stats l).p95 = PyFloat.num (specLinearQuantile l (95 / 100)) ∧
    (compute_stats l).p99 = PyFloat.num (specLinearQuantile l (99 / 100)) := by
  have h50 : (50 : ℚ) / 100 = 1 / 2 := by norm_num
  rw [compute_stats_of_ne_nil hl]
  refine ⟨rfl, rfl,
    ⟨listMin l, rfl, listMin_mem hl, fun x hx => listMin_le hx⟩,
    ⟨listMax l, rfl, listMax_mem hl, fun x hx => le_listMax hx⟩,
    ?_, ?_, ?_⟩
  · rw [h50, ← quantile_eq_spec]
  · rw [← quantile_eq_spec]
  · rw [← quantile_eq_spec]

/-- Witness for C4 at the concrete collection `[5, 1, 4]`. -/
theorem claim_C4_witness :
    ([5, 1, 4] : List ℚ) ≠ [] ∧
    ((compute_stats [5, 1, 4]).count = ([5, 1, 4] : List ℚ).length ∧
      (compute_stats [5, 1, 4]).mean =
        PyFloat.num (([5, 1, 4] : List ℚ).sum / ((([5, 1, 4] : List ℚ).length : ℕ) : ℚ)) ∧
      (∃ m, (compute_stats [5, 1, 4]).min = PyFloat.num m ∧ m ∈ ([5, 1, 4] : List ℚ) ∧
        ∀ x ∈ ([5, 1, 4] : List ℚ), m ≤ x) ∧
      (∃ M, (compute_stats [5, 1, 4]).max = PyFloat.num M ∧ M ∈ ([5, 1, 4] : List ℚ) ∧
        ∀ x ∈ ([5, 1, 4] : List ℚ), x ≤ M) ∧
      (compute_stats [5, 1, 4]).p50 = PyFloat.num (specLinearQuantile [5, 1, 4] (50 / 100)) ∧
      (compute_stats [5, 1, 4]).p95 = PyFloat.num (specLinearQuantile [5, 1, 4] (95 / 100)) ∧
      (compute_stats [5, 1, 4]).p99 = PyFloat.num (specLinearQuantile [5, 1, 4] (99 / 100))) :=
  ⟨by decide, claim_C4 [5, 1, 4] (by decide)⟩

/-- C5: aggregation is order-independent: permuting the session list
yields, for any metric key the aggregate mapping contains, a permutation
of the same value multiset, and `compute_stats` on the aggregated values
is identical regardless of the permutation. -/
theorem claim_C5 (files files' : List SessionData) (hp : files.Perm files') (k : String)
    (vs vs' : List ℚ)
    (h1 : (aggregate_metrics files).metrics.lookup k = some vs)
    (h2 : (aggregate_metrics files').metrics.lookup k = some vs') :
    vs.Perm vs' ∧ compute_stats vs = compute_stats vs' := by
  rw [aggregate_metrics_metrics] at h1 h2
  have e1 := lookup_map_keys_eq h1
  have e2 := lookup_map_keys_eq h2
  subst e1
  subst e2
  have hperm : (metricValues files k).Perm (metricValues files' k) := by
    unfold metricValues
    exact hp.flatMap_right _
  exact ⟨hperm, compute_stats_congr_perm hperm⟩

/-- Witness for C5: two one-metric sessions in both orders. -/
theorem claim_C5_witness :
    (metricValues [⟨[("latency", [⟨0, 7⟩, ⟨1000, 3⟩])], none, none⟩,
        ⟨[("latency", [⟨0, 5⟩])], none, none⟩] "latency").Perm
      (metricValues [⟨[("latency", [⟨0, 5⟩])], none, none⟩,
        ⟨[("latency", [⟨0, 7⟩, ⟨1000, 3⟩])], none, none⟩] "latency") ∧
    compute_stats (metricValues [⟨[("latency", [⟨0, 7⟩, ⟨1000, 3⟩])], none, none⟩,
        ⟨[("latency", [⟨0, 5⟩])], none, none⟩] "latency") =
      compute_stats (metricValues [⟨[("latency", [⟨0, 5⟩])], none, none⟩,
        ⟨[("latency", [⟨0, 7⟩, ⟨1000, 3⟩])], none, none⟩] "latency") :=
  claim_C5
    [⟨[("latency", [⟨0, 7⟩, ⟨1000, 3⟩])], none, none⟩, ⟨[("latency", [⟨0, 5⟩])], none, none⟩]
    [⟨[("latency", [⟨0, 5⟩])], none, none⟩, ⟨[("latency", [⟨0, 7⟩, ⟨1000, 3⟩])], none, none⟩]
    (by decide) "latency" _ _ rfl rfl

/-- C6: for every non-empty value collection the statistics satisfy
`p50 ≤ p95 ≤ p99`, `min ≤ p50 ≤ max` and `min ≤ mean ≤ max`. -/
theorem claim_C6 (l : List ℚ) (hl : l ≠ []) :
    PyFloat.Le (compute_stats l).p50 (compute_stats l).p95 ∧
    PyFloat.Le (compute_stats l).p95 (compute_stats l).p99 ∧
    PyFloat.Le (compute_stats l).min (compute_stats l).p50 ∧
    PyFloat.Le (compute_stats l).p50 (compute_stats l).max ∧
    PyFloat.Le (compute_stats l).min (compute_stats l).mean ∧
    PyFloat.Le (compute_stats l).mean (compute_stats l).max := by
  rw [compute_stats_of_ne_nil hl]
  exact ⟨quantile_mono hl (by norm_num) (by norm_num) (by norm_num),
    quantile_mono hl (by norm_num) (by norm_num) (by norm_num),
    min_le_quantile hl (by norm_num) (by norm_num),
    quantile_le_max hl (by norm_num) (by norm_num),
    min_le_mean hl, mean_le_max hl⟩

/-- Witness for C6 at the concrete collection `[3, 1, 2]`. -/
theorem claim_C6_witness :
    ([3, 1, 2] : List ℚ) ≠ [] ∧
    (PyFloat.Le (compute_stats [3, 1, 2]).p50 (compute_stats [3, 1, 2]).p95 ∧
      PyFloat.Le (compute_stats [3, 1, 2]).p95 (compute_stats [3, 1, 2]).p99 ∧
      PyFloat.Le (compute_stats [3, 1, 2]).min (compute_stats [3, 1, 2]).p50 ∧
      PyFloat.Le (compute_stats [3, 1, 2]).p50 (compute_stats [3, 1, 2]).max ∧
      PyFloat.Le (compute_stats [3, 1, 2]).min (compute_stats [3, 1, 2]).mean ∧
      PyFloat.Le (compute_stats [3, 1, 2]).mean (compute_stats [3, 1, 2]).max) :=
  ⟨by decide, claim_C6 [3, 1, 2] (by decide)⟩

/-- C7: the reconstructed elapsed time of the sample at 0-based position
`i` equals `i × intervalMs / 1000` seconds, where `intervalMs` is the
session's configured interval defaulting to `1000`; the axis depends only
on the series length, never on any sample's raw `timestamp` field. -/
theorem claim_C7 (d : AnalyzerData) (m : String) (es : List ℚ)
    (hes : extract_elapsed d m = some es) :
    (∀ i, i < es.length → es.getD i 0 = (i : ℚ) * (d.interval.getD 1000 / 1000)) ∧
    ∀ pts pts' : List MetricPoint, pts.length = pts'.length →
      elapsed_sec d pts = elapsed_sec d pts' := by
  constructor
  · unfold extract_elapsed at hes
    split at hes
    · split at hes
      · rename_i pts hlk
        split at hes
        · rename_i hp
          injection hes with hval
          subst hval
          intro i hi
          have hlen : i < pts.length := by
            have he : (elapsed_sec d pts).length = pts.length := by
              simp [elapsed_sec]
            rw [he] at hi
            exact hi
          exact elapsed_sec_getD d pts i hlen
        · simp at hes
      · simp at hes
    · simp at hes
  · intro pts pts' hlen
    unfold elapsed_sec
    rw [hlen]

/-- Witness for C7: a two-sample latency series with interval 500 ms and
deliberately irregular raw timestamps. -/
theorem claim_C7_witness :
    extract_elapsed (AnalyzerData.mk [("latency", [⟨999, 1⟩, ⟨1500, 2⟩])] (some 500)) "latency" =
      some (elapsed_sec (AnalyzerData.mk [("latency", [⟨999, 1⟩, ⟨1500, 2⟩])] (some 500))
        [⟨999, 1⟩, ⟨1500, 2⟩]) ∧
    ((∀ i, i < (elapsed_sec (AnalyzerData.mk [("latency", [⟨999, 1⟩, ⟨1500, 2⟩])] (some 500))
          [⟨999, 1⟩, ⟨1500, 2⟩]).length →
        (elapsed_sec (AnalyzerData.mk [("latency", [⟨999, 1⟩, ⟨1500, 2⟩])] (some 500))
          [⟨999, 1⟩, ⟨1500, 2⟩]).getD i 0 =
          (i : ℚ) * ((AnalyzerData.mk [("latency", [⟨999, 1⟩, ⟨1500, 2⟩])]
            (some 500)).interval.getD 1000 / 1000)) ∧
      ∀ pts pts' : List MetricPoint, pts.length = pts'.length →
        elapsed_sec (AnalyzerData.mk [("latency", [⟨999, 1⟩, ⟨1500, 2⟩])] (some 500)) pts =
          elapsed_sec (AnalyzerData.mk [("latency", [⟨999, 1⟩, ⟨1500, 2⟩])] (some 500)) pts') :=
  ⟨rfl, claim_C7 _ "latency" _ rfl⟩

/-- C8: for every single value `v`, `compute_stats [v]` yields
`mean = p50 = p95 = p99 = min = max = v` and `count = 1`. -/
theorem claim_C8 (v : ℚ) :
    compute_stats [v] =
      { mean := .num v, p50 := .num v, p95 := .num v, p99 := .num v,
        min := .num v, max := .num v, count := 1 } := by
  have h : ([v] : List ℚ) ≠ [] := by simp
  have hq : ∀ q : ℚ, quantile [v] q = v := by
    intro q
    simp [quantile, interp, pySorted]
  rw [compute_stats_of_ne_nil h]
  simp [hq, listMin, listMax, pySorted]

/-- C9: a session in which a metric kind is absent contributes zero values
and never aborts aggregation: the aggregate for that key is exactly the
concatenation of the other sessions' contributions. -/
theorem claim_C9 (pre post : List SessionData) (d : SessionData) (k : String)
    (hk : k ∈ METRIC_KEYS) (hd : d.metrics.lookup k = none) :
    (aggregate_metrics (pre ++ d :: post)).metrics.lookup k =
      some (metricValues pre k ++ metricValues post k) := by
  rw [aggregate_metrics_metrics, lookup_map_keys _ _ _ hk]
  congr 1
  rw [metricValues_append, metricValues_cons]
  simp [sessionContrib, hd]

/-- Witness for C9: the middle session lacks `"jitter"`; the two outer
sessions' jitter values survive unchanged. -/
theorem claim_C9_witness :
    "jitter" ∈ METRIC_KEYS ∧
    (SessionData.mk [("latency", [⟨0, 9⟩])] none none).metrics.lookup "jitter" = none ∧
    (aggregate_metrics
        [⟨[("jitter", [⟨0, 4⟩])], none, none⟩,
          ⟨[("latency", [⟨0, 9⟩])], none, none⟩,
          ⟨[("jitter", [⟨0, 6⟩])], some 3, some 1000⟩]).metrics.lookup "jitter" =
      some (metricValues [⟨[("jitter", [⟨0, 4⟩])], none, none⟩] "jitter" ++
        metricValues [⟨[("jitter", [⟨0, 6⟩])], some 3, some 1000⟩] "jitter") :=
  ⟨by decide, rfl,
    claim_C9 [⟨[("jitter", [⟨0, 4⟩])], none, none⟩]
      [⟨[("jitter", [⟨0, 6⟩])], some 3, some 1000⟩]
      ⟨[("latency", [⟨0, 9⟩])], none, none⟩ "jitter" (by decide) rfl⟩

/-- C10: the metrics mapping returned by aggregation has exactly the five
recognized metric kinds as keys, in order, and a kind absent from every
session maps to the empty value sequence rather than being missing. -/
theorem claim_C10 (files : List SessionData) :
    (aggregate_metrics files).metrics.map Prod.fst = METRIC_KEYS ∧
    ∀ k ∈ METRIC_KEYS, (∀ d ∈ files, d.metrics.lookup k = none) →
      (aggregate_metrics files).metrics.lookup k = some [] := by
  constructor
  · rw [aggregate_metrics_metrics, List.map_map]
    exact List.map_id METRIC_KEYS
  · intro k hk habs
    rw [aggregate_metrics_metrics, lookup_map_keys _ _ _ hk, metricValues_eq_nil habs]

end E2EE
